import Mathlib

/-!
Shallow embedding of `transcript.py`: a YouTube transcript fetch/format/clean
pipeline.  Pure string manipulation is translated directly; the three network
oracles (title lookup, transcript retrieval, Gemini cleaning) are modelled as
an environment of their possible results, and `main` as a pure function from
that environment to the trace of file writes and external calls it performs.
-/

namespace Transcript

/-- The character class `[0-9A-Za-z_-]` of the two regex patterns. -/
def isIdChar (c : Char) : Bool :=
  c.isDigit || c.isUpper || c.isLower || c = '_' || c = '-'

/-- Attempt of pattern 1, `(?:v=|\/)([0-9A-Za-z_-]{11}).*`, anchored at the
current position: the alternation tries `v=` then `/`, then exactly eleven
identifier characters are captured; the trailing `.*` always succeeds. -/
def matchP1At : List Char → Option (List Char)
  | 'v' :: '=' :: rest =>
    if (rest.take 11).all isIdChar && (rest.take 11).length = 11 then
      some (rest.take 11)
    else none
  | '/' :: rest =>
    if (rest.take 11).all isIdChar && (rest.take 11).length = 11 then
      some (rest.take 11)
    else none
  | _ => none

/-- `re.search` for pattern 1: scan positions left to right, first match wins. -/
def searchP1 : List Char → Option (List Char)
  | [] => none
  | c :: rest =>
    match matchP1At (c :: rest) with
    | some g => some g
    | none => searchP1 rest

/-- Attempt of pattern 2, `youtu.be\/([0-9A-Za-z_-]{11})`, anchored at the
current position; the unescaped `.` matches any character except newline. -/
def matchP2At : List Char → Option (List Char)
  | 'y' :: 'o' :: 'u' :: 't' :: 'u' :: c :: 'b' :: 'e' :: '/' :: rest =>
    if c ≠ '\n' && ((rest.take 11).all isIdChar && (rest.take 11).length = 11) then
      some (rest.take 11)
    else none
  | _ => none

/-- `re.search` for pattern 2. -/
def searchP2 : List Char → Option (List Char)
  | [] => none
  | c :: rest =>
    match matchP2At (c :: rest) with
    | some g => some g
    | none => searchP2 rest

/-- `extract_video_id(url)`: try the two patterns in order; the first
pattern that matches anywhere in the url wins and its capture group is
returned; `None` if neither matches. -/
def extract_video_id (url : String) : Option String :=
  match searchP1 url.data with
  | some g => some (String.mk g)
  | none =>
    match searchP2 url.data with
    | some g => some (String.mk g)
    | none => none

/-- Python `int(x)` on the seconds value: truncation toward zero.  Seconds
values (floats in the source) are modelled as rationals. -/
def pyInt (q : ℚ) : ℤ := Int.tdiv q.num q.den

/-- Render a number as two decimal digits, as `str(timedelta)` does for the
minute and second fields. -/
def twoDigit (n : Nat) : String :=
  if n < 10 then "0" ++ toString n else toString n

/-- `str(datetime.timedelta(seconds=n))` for an integer number of seconds:
normalise into days plus a remainder in `[0, 86400)` (Python `//` and `%`
are floor division and modulus), print `H:MM:SS` with unpadded hours, and
prepend `D day(s), ` when the day count is nonzero. -/
def timedeltaStr (n : ℤ) : String :=
  let days : ℤ := Int.fdiv n 86400
  let rem : Nat := (Int.fmod n 86400).toNat
  let h := rem / 3600
  let m := rem % 3600 / 60
  let s := rem % 60
  let hms := toString h ++ ":" ++ twoDigit m ++ ":" ++ twoDigit s
  if days = 0 then hms
  else toString days ++ (if days.natAbs = 1 then " day, " else " days, ") ++ hms

/-- `format_timestamp(seconds)` = `str(timedelta(seconds=int(seconds)))`. -/
def format_timestamp (seconds : ℚ) : String :=
  timedeltaStr (pyInt seconds)

/-- The characters removed by `sanitize_filename`, in source order. -/
def invalid_chars : List Char := ['<', '>', ':', '"', '/', '\\', '|', '?', '*']

/-- ASCII whitespace stripped by Python `str.strip()`. -/
def isPySpace (c : Char) : Bool :=
  c = ' ' || c = '\t' || c = '\n' || c = '\r' || c = '\x0b' || c = '\x0c'

/-- Python `str.strip()`: drop leading and trailing whitespace. -/
def pyStrip (l : List Char) : List Char :=
  ((l.dropWhile isPySpace).reverse.dropWhile isPySpace).reverse

/-- `sanitize_filename(filename)`: delete every occurrence of each invalid
character in turn (the loop of `str.replace(char, '')` calls), then strip
leading/trailing whitespace and keep the first 200 characters (`[:200]`). -/
def sanitize_filename (filename : String) : String :=
  String.mk
    ((pyStrip (invalid_chars.foldl (fun acc c => acc.filter (fun d => d ≠ c))
      filename.data)).take 200)

/-- One caption unit as used by the source: `entry['start']` and
`entry['text']` (the unused `duration` field is not modelled). -/
structure TranscriptEntry where
  start : ℚ
  text : String
deriving DecidableEq

/-- The line `f"[{format_timestamp(entry['start'])}] {entry['text']}"` built
both in `main` and in `save_raw_transcript`. -/
def formattedLine (e : TranscriptEntry) : String :=
  "[" ++ format_timestamp e.start ++ "] " ++ e.text

/-- The blob `"\n".join(raw_transcript_lines)` built in `main` and sent to
the cleaner. -/
def raw_transcript_text (transcript : List TranscriptEntry) : String :=
  String.intercalate "\n" (transcript.map formattedLine)

/-- The body written by the loop in `save_raw_transcript`: one
`f"[{timestamp}] {text}\n"` write per entry. -/
def rawBody (transcript : List TranscriptEntry) : String :=
  String.join (transcript.map (fun e => formattedLine e ++ "\n"))

/-- Python `video_title or 'Unknown Title'`: `None` and the empty string are
falsy. -/
def titleOrUnknown : Option String → String
  | some t => if t = "" then "Unknown Title" else t
  | none => "Unknown Title"

/-- `sanitize_filename(video_title) if video_title else video_id`, shared
verbatim by both save functions. -/
def base_filename (video_id : String) : Option String → String
  | some t => if t = "" then video_id else sanitize_filename t
  | none => video_id

/-- Path of the raw file: `os.path.join('transcripts', f"{base}_raw.md")`. -/
def rawFilepath (video_id : String) (video_title : Option String) : String :=
  "transcripts/" ++ base_filename video_id video_title ++ "_raw.md"

/-- Path of the cleaned file: `os.path.join('transcripts', f"{base}.md")`. -/
def cleanedFilepath (video_id : String) (video_title : Option String) : String :=
  "transcripts/" ++ base_filename video_id video_title ++ ".md"

/-- Content written by `save_raw_transcript`: heading, blank line, `---`
separator, blank line, then the timestamped body. -/
def save_raw_content (video_title : Option String)
    (transcript : List TranscriptEntry) : String :=
  "# " ++ titleOrUnknown video_title ++ " (Raw Transcript)\n\n" ++ "---\n\n" ++
    rawBody transcript

/-- Content written by `save_cleaned_transcript`: heading, separator, then
the cleaned text verbatim. -/
def save_cleaned_content (video_title : Option String)
    (cleaned_text : String) : String :=
  "# " ++ titleOrUnknown video_title ++ " (Cleaned Transcript)\n\n" ++ "---\n\n" ++
    cleaned_text

/-- Results of the three external collaborators for one run.  Each source
function catches every exception and returns `None`, modelled as `none`:
`get_video_title` (oEmbed title lookup), `get_transcript` (caption fetch,
`none` covering both the `None` return and the exception paths), and
`clean_transcript_with_gemini` (whose failure modes all collapse into a
caught exception and a `None` return, with no retry in the source). -/
structure Env where
  titleResult : Option String
  transcriptResult : Option (List TranscriptEntry)
  cleanResult : Option String

/-- Observable effects of one run of `main`, in order: a file write by
`save_raw_transcript`, the call to `clean_transcript_with_gemini`, and a
file write by `save_cleaned_transcript`.  Directory creation happens only
inside the two save functions, so a run with no write events creates no
entries under `transcripts/`. -/
inductive Ev
  | wroteRaw (path content : String)
  | calledClean (input : String)
  | wroteCleaned (path content : String)
deriving DecidableEq

/-- The `main()` pipeline as a trace function.  Mirrors the source line by
line: parse the URL (abort on `None`); look up title and transcript; Python
`if transcript:` treats both `None` and the empty list as failure and aborts
before any save; otherwise build the blob, save the raw file, call the
cleaner once, and save the cleaned file only when the response is truthy
(non-`None` and non-empty). -/
def runMain (url : String) (env : Env) : List Ev :=
  match extract_video_id url with
  | none => []
  | some video_id =>
    let video_title := env.titleResult
    match env.transcriptResult with
    | none => []
    | some transcript =>
      if transcript.isEmpty then []
      else
        let blob := raw_transcript_text transcript
        [Ev.wroteRaw (rawFilepath video_id video_title)
            (save_raw_content video_title transcript),
          Ev.calledClean blob] ++
          match env.cleanResult with
          | none => []
          | some cleaned =>
            if cleaned = "" then []
            else [Ev.wroteCleaned (cleanedFilepath video_id video_title)
              (save_cleaned_content video_title cleaned)]

/-- Shape predicate for the spec's `H:MM:SS` timestamp form: one or more
digits for the hours, a colon, two digits for the minutes, a colon, two
digits for the seconds, and nothing else. -/
def isHMS (t : String) : Bool :=
  match t.data.dropWhile Char.isDigit with
  | ':' :: m1 :: m2 :: ':' :: s1 :: s2 :: [] =>
    (t.data.takeWhile Char.isDigit ≠ []) && m1.isDigit && m2.isDigit &&
      s1.isDigit && s2.isDigit
  | _ => false

/-! ### Sanity checks on concrete inputs -/

example : extract_video_id "https://www.youtube.com/watch?v=dQw4w9WgXcQ" =
    some "dQw4w9WgXcQ" := by decide

example : extract_video_id "not a url" = none := by decide

example : format_timestamp 3661 = "1:01:01" := by decide
example : format_timestamp 0 = "0:00:00" := by decide
example : format_timestamp 86400 = "1 day, 0:00:00" := by decide

example : sanitize_filename "  a<b>:c  " = "abc" := by decide

example : isHMS "0:01:05" = true := by decide
example : isHMS "23:59:59" = true := by decide
example : isHMS "1 day, 0:00:00" = false := by decide
example : isHMS "0:1:05" = false := by decide

/-! ### Lemmas about the URL parser -/

theorem matchP1At_ok {l g : List Char} (h : matchP1At l = some g) :
    g.length = 11 ∧ g.all isIdChar = true := by
  unfold matchP1At at h
  split at h
  · split at h
    · rename_i hc
      simp only [Bool.and_eq_true, decide_eq_true_eq] at hc
      injection h with h2
      subst h2
      exact ⟨hc.2, hc.1⟩
    · exact absurd h (by simp)
  · split at h
    · rename_i hc
      simp only [Bool.and_eq_true, decide_eq_true_eq] at hc
      injection h with h2
      subst h2
      exact ⟨hc.2, hc.1⟩
    · exact absurd h (by simp)
  · exact absurd h (by simp)

theorem searchP1_ok {l g : List Char} (h : searchP1 l = some g) :
    g.length = 11 ∧ g.all isIdChar = true := by
  induction l with
  | nil => simp [searchP1] at h
  | cons c rest ih =>
    rw [searchP1] at h
    split at h
    · rename_i heq
      injection h with h2
      subst h2
      exact matchP1At_ok heq
    · exact ih h

theorem matchP2At_ok {l g : List Char} (h : matchP2At l = some g) :
    g.length = 11 ∧ g.all isIdChar = true := by
  unfold matchP2At at h
  split at h
  · split at h
    · rename_i hc
      simp only [Bool.and_eq_true, decide_eq_true_eq] at hc
      injection h with h2
      subst h2
      exact ⟨hc.2.2, hc.2.1⟩
    · exact absurd h (by simp)
  · exact absurd h (by simp)

theorem searchP2_ok {l g : List Char} (h : searchP2 l = some g) :
    g.length = 11 ∧ g.all isIdChar = true := by
  induction l with
  | nil => simp [searchP2] at h
  | cons c rest ih =>
    rw [searchP2] at h
    split at h
    · rename_i heq
      injection h with h2
      subst h2
      exact matchP2At_ok heq
    · exact ih h

theorem searchP1_watch (s : List Char) (h1 : s.length = 11)
    (h2 : s.all isIdChar = true) :
    searchP1 ("https://www.youtube.com/watch?v=".data ++ s) = some s := by
  have htake : s.take 11 = s := by rw [← h1]; exact List.take_length s
  show searchP1 ('v' :: '=' :: s) = some s
  rw [searchP1]
  have hm : matchP1At ('v' :: '=' :: s) = some s := by
    simp only [matchP1At, htake, h2, h1]
    simp
  rw [hm]

theorem searchP1_youtube (s : List Char) (h1 : s.length = 11)
    (h2 : s.all isIdChar = true) :
    searchP1 ("https://youtu.be/".data ++ s) = some s := by
  have htake : s.take 11 = s := by rw [← h1]; exact List.take_length s
  show searchP1 ('/' :: s) = some s
  rw [searchP1]
  have hm : matchP1At ('/' :: s) = some s := by
    simp only [matchP1At, htake, h2, h1]
    simp
  rw [hm]

/-! ### Arithmetic bridge for the timestamp formatter -/

/-- On non-negative rationals, Python truncation agrees with the floor. -/
theorem pyInt_eq_floor {q : ℚ} (h : 0 ≤ q) : pyInt q = ⌊q⌋ := by
  obtain ⟨m, hm⟩ := Int.eq_ofNat_of_zero_le (Rat.num_nonneg.mpr h)
  rw [Rat.floor_def, pyInt, hm, ← Int.ofNat_tdiv, Int.ofNat_ediv]

/-! ### Claim theorems -/

/-- C1 (counterexample): the URL
`https://evil.example/abcdefghijk/watch?v=dQw4w9WgXcQ` is of the form
`.../watch?v=XXXXXXXXXXX` with identifier `dQw4w9WgXcQ`, yet
`extract_video_id` returns the earlier first match `abcdefghijk` of
pattern 1, not that identifier. -/
theorem claim1_counterexample :
    extract_video_id "https://evil.example/abcdefghijk/watch?v=dQw4w9WgXcQ" =
      some "abcdefghijk" ∧
    ("abcdefghijk" : String) ≠ "dQw4w9WgXcQ" := by
  constructor
  · decide
  · decide

/-- C1 (amended): for every 11-character identifier over `[0-9A-Za-z_-]`,
`extract_video_id` applied to the canonical `watch?v=` and `youtu.be/` URL
forms returns exactly that identifier; for URLs whose prefix contains an
earlier pattern match, the first match wins instead. -/
theorem claim1_extract_video_id_canonical (s : String) (h1 : s.length = 11)
    (h2 : s.data.all isIdChar = true) :
    extract_video_id ("https://www.youtube.com/watch?v=" ++ s) = some s ∧
    extract_video_id ("https://youtu.be/" ++ s) = some s := by
  have hd : s.data.length = 11 := h1
  constructor
  · unfold extract_video_id
    rw [String.data_append, searchP1_watch s.data hd h2]
  · unfold extract_video_id
    rw [String.data_append, searchP1_youtube s.data hd h2]

/-- C1 (witness). -/
theorem claim1_witness :
    extract_video_id ("https://www.youtube.com/watch?v=" ++ "dQw4w9WgXcQ") =
      some "dQw4w9WgXcQ" ∧
    extract_video_id ("https://youtu.be/" ++ "dQw4w9WgXcQ") =
      some "dQw4w9WgXcQ" :=
  claim1_extract_video_id_canonical "dQw4w9WgXcQ" (by decide) (by decide)

/-- C2: `extract_video_id` is total (the embedding is a Lean function, so it
never raises) and every non-`none` result is an 11-character string over
`[0-9A-Za-z_-]`. -/
theorem claim2_extract_video_id_valid (url s : String)
    (h : extract_video_id url = some s) :
    s.length = 11 ∧ s.data.all isIdChar = true := by
  unfold extract_video_id at h
  split at h
  · rename_i heq
    injection h with h2
    subst h2
    exact searchP1_ok heq
  · split at h
    · rename_i heq
      injection h with h2
      subst h2
      exact searchP2_ok heq
    · exact absurd h (by simp)

/-- C2 (witness). -/
theorem claim2_witness :
    ("dQw4w9WgXcQ" : String).length = 11 ∧
    ("dQw4w9WgXcQ" : String).data.all isIdChar = true :=
  claim2_extract_video_id_valid "https://www.youtube.com/watch?v=dQw4w9WgXcQ"
    "dQw4w9WgXcQ" (by decide)

/-! ### String joining lemmas -/

theorem join_cons (x : String) (xs : List String) :
    String.join (x :: xs) = x ++ String.join xs := by
  apply String.ext
  simp [String.join_eq]

theorem intercalate_go_newline (as : List String) :
    ∀ acc : String, String.intercalate.go acc "\n" as ++ "\n" =
      acc ++ "\n" ++ String.join (as.map (fun x => x ++ "\n")) := by
  induction as with
  | nil =>
    intro acc
    simp [String.intercalate.go, String.join]
  | cons a as ih =>
    intro acc
    rw [String.intercalate.go, ih (acc ++ "\n" ++ a), List.map_cons, join_cons]
    simp [String.append_assoc]

/-- C9 (counterexample): on the empty entry sequence the raw-file body is
empty while the blob followed by a newline is `"\n"`. -/
theorem claim9_counterexample :
    rawBody [] = "" ∧ raw_transcript_text [] ++ "\n" = "\n" ∧
    ("" : String) ≠ "\n" := by
  refine ⟨rfl, rfl, by decide⟩

/-- C9 (amended): for every nonempty entry sequence (and `main` only reaches
the formatter with a nonempty one, since Python treats an empty list as
falsy), the raw-file body equals the blob sent to the cleaner followed by
one trailing newline. -/
theorem claim9_body_eq_blob (transcript : List TranscriptEntry)
    (h : transcript ≠ []) :
    rawBody transcript = raw_transcript_text transcript ++ "\n" := by
  cases transcript with
  | nil => exact absurd rfl h
  | cons e ts =>
    unfold rawBody raw_transcript_text
    rw [List.map_cons, List.map_cons, join_cons, String.intercalate,
      intercalate_go_newline, List.map_map]
    rfl

/-- C9 (witness). -/
theorem claim9_witness :
    rawBody [⟨0, "Hello"⟩] = raw_transcript_text [⟨0, "Hello"⟩] ++ "\n" :=
  claim9_body_eq_blob [⟨0, "Hello"⟩] (by decide)

/-- C6: when transcript retrieval fails (`get_transcript` returns `None`),
the run performs no effect at all: no file write and no cleaning call, hence
no entry is created under the output directory. -/
theorem claim6_no_transcript_aborts (url : String) (env : Env)
    (h : env.transcriptResult = none) : runMain url env = [] := by
  unfold runMain
  split
  · rfl
  · simp [h]

/-- C6 (witness). -/
theorem claim6_witness :
    runMain "https://www.youtube.com/watch?v=dQw4w9WgXcQ"
      ⟨some "Example Title", none, some "cleaned"⟩ = [] :=
  claim6_no_transcript_aborts _ _ rfl

/-- C7: when the cleaning call fails (returns the `None` sentinel, into
which all its failure modes collapse), the run still contains the raw-file
write, makes exactly one cleaning call (no retry), and writes no cleaned
file. -/
theorem claim7_clean_failure_nonfatal (url : String) (env : Env)
    (video_id : String) (transcript : List TranscriptEntry)
    (hu : extract_video_id url = some video_id)
    (ht : env.transcriptResult = some transcript)
    (hne : transcript ≠ [])
    (hc : env.cleanResult = none) :
    runMain url env =
      [Ev.wroteRaw (rawFilepath video_id env.titleResult)
          (save_raw_content env.titleResult transcript),
        Ev.calledClean (raw_transcript_text transcript)] := by
  cases transcript with
  | nil => exact absurd rfl hne
  | cons e ts => simp [runMain, hu, ht, hc]

/-- C7 (witness). -/
theorem claim7_witness :
    runMain "https://www.youtube.com/watch?v=dQw4w9WgXcQ"
      ⟨some "Example Title", some [⟨0, "Hello"⟩], none⟩ =
      [Ev.wroteRaw (rawFilepath "dQw4w9WgXcQ" (some "Example Title"))
          (save_raw_content (some "Example Title") [⟨0, "Hello"⟩]),
        Ev.calledClean (raw_transcript_text [⟨0, "Hello"⟩])] :=
  claim7_clean_failure_nonfatal _ _ _ _ (by decide) rfl (by decide) rfl

/-- C8: when the title lookup fails but the transcript succeeds, the run
still starts with the raw-file write, whose filename base is the raw video
identifier and whose heading uses `Unknown Title`. -/
theorem claim8_title_failure_nonfatal (url : String) (env : Env)
    (video_id : String) (transcript : List TranscriptEntry)
    (hu : extract_video_id url = some video_id)
    (hti : env.titleResult = none)
    (ht : env.transcriptResult = some transcript)
    (hne : transcript ≠ []) :
    (runMain url env).head? =
      some (Ev.wroteRaw ("transcripts/" ++ video_id ++ "_raw.md")
        ("# Unknown Title (Raw Transcript)\n\n---\n\n" ++ rawBody transcript)) := by
  cases transcript with
  | nil => exact absurd rfl hne
  | cons e ts =>
    simp [runMain, hu, ht, hti, rawFilepath, base_filename, save_raw_content,
      titleOrUnknown]

/-- C8 (witness). -/
theorem claim8_witness :
    (runMain "https://www.youtube.com/watch?v=dQw4w9WgXcQ"
        ⟨none, some [⟨0, "Hello"⟩], some "cleaned"⟩).head? =
      some (Ev.wroteRaw ("transcripts/" ++ "dQw4w9WgXcQ" ++ "_raw.md")
        ("# Unknown Title (Raw Transcript)\n\n---\n\n" ++
          rawBody [⟨0, "Hello"⟩])) :=
  claim8_title_failure_nonfatal _ _ _ _ (by decide) rfl rfl (by decide)

/-- C10: within one run the raw path and the cleaned path are distinct: the
two save functions derive the same base name but append `_raw.md` and `.md`
respectively, so the two writes never target the same file. -/
theorem claim10_paths_distinct (video_id : String)
    (video_title : Option String) :
    rawFilepath video_id video_title ≠ cleanedFilepath video_id video_title := by
  intro h
  have hlen := congrArg String.length h
  rw [rawFilepath, cleanedFilepath] at hlen
  simp only [String.length_append] at hlen
  have e1 : ("_raw.md" : String).length = 7 := rfl
  have e2 : (".md" : String).length = 3 := rfl
  rw [e1, e2] at hlen
  omega

/-- C4: `format_timestamp` truncates fractional seconds (rendering the
floor of its non-negative input, never rounding up); in particular 65.9
seconds renders as `0:01:05`, not `0:01:06`. -/
theorem claim4_format_timestamp_truncates :
    (∀ q : ℚ, 0 ≤ q → format_timestamp q = timedeltaStr ⌊q⌋) ∧
    format_timestamp (659 / 10 : ℚ) = "0:01:05" ∧
    format_timestamp (659 / 10 : ℚ) ≠ "0:01:06" := by
  have hq : (659 / 10 : ℚ) = Rat.mk' 659 10 (by norm_num) (by norm_num) := by
    rw [Rat.mk'_eq_divInt, Rat.divInt_eq_div]
    norm_num
  refine ⟨fun q h => ?_, by rw [hq]; decide, by rw [hq]; decide⟩
  rw [format_timestamp, pyInt_eq_floor h]

/-- C4 (witness). -/
theorem claim4_witness :
    format_timestamp (659 / 10 : ℚ) = timedeltaStr ⌊(659 / 10 : ℚ)⌋ :=
  claim4_format_timestamp_truncates.1 (659 / 10) (by norm_num)

/-! ### Lemmas about `sanitize_filename` -/

theorem foldl_filter_subset (cs : List Char) :
    ∀ l : List Char, cs.foldl (fun acc c => acc.filter (fun d => d ≠ c)) l ⊆ l := by
  induction cs with
  | nil => intro l; simp
  | cons c cs ih =>
    intro l
    rw [List.foldl_cons]
    exact (ih _).trans (List.filter_sublist l).subset

theorem not_mem_of_foldl_filter (cs : List Char) :
    ∀ (l : List Char) (x : Char),
      x ∈ cs.foldl (fun acc c => acc.filter (fun d => d ≠ c)) l → x ∉ cs := by
  induction cs with
  | nil => intro l x _; simp
  | cons c cs ih =>
    intro l x hx
    rw [List.foldl_cons] at hx
    have h2 : x ∉ cs := ih _ x hx
    have h3 : x ∈ l.filter (fun d => d ≠ c) :=
      foldl_filter_subset cs _ hx
    have h4 : x ≠ c := by simpa using (List.mem_filter.mp h3).2
    simp [h4, h2]

theorem dropWhile_sub (p : Char → Bool) (l : List Char) : l.dropWhile p ⊆ l :=
  (List.dropWhile_suffix p).subset

theorem pyStrip_subset (l : List Char) : pyStrip l ⊆ l := by
  intro x hx
  unfold pyStrip at hx
  rw [List.mem_reverse] at hx
  have h1 := dropWhile_sub isPySpace _ hx
  rw [List.mem_reverse] at h1
  exact dropWhile_sub isPySpace l h1

theorem head?_dropWhile_false (p : Char → Bool) :
    ∀ (l : List Char) (c : Char), (l.dropWhile p).head? = some c → p c = false := by
  intro l
  induction l with
  | nil => intro c h; simp [List.dropWhile] at h
  | cons a t ih =>
    intro c h
    rw [List.dropWhile_cons] at h
    cases hpa : p a with
    | true =>
      rw [hpa] at h
      simp only [if_pos] at h
      exact ih c h
    | false =>
      rw [hpa] at h
      simp only [if_neg Bool.false_ne_true, List.head?_cons, Option.some.injEq] at h
      rw [← h]
      exact hpa

theorem head?_of_listPre {l m : List Char} (h : l <+: m) {c : Char}
    (hc : l.head? = some c) : m.head? = some c := by
  obtain ⟨t, rfl⟩ := h
  cases l with
  | nil => simp at hc
  | cons a l =>
    simp only [List.head?_cons, Option.some.injEq] at hc
    simp [hc]

theorem reverse_dropWhile_reverse_pre (p : Char → Bool) (m : List Char) :
    (m.reverse.dropWhile p).reverse <+: m := by
  have h1 := List.dropWhile_suffix (l := m.reverse) p
  rw [← List.reverse_reverse (m.reverse.dropWhile p)] at h1
  exact List.reverse_suffix.mp h1

theorem pyStrip_head_not_space (l : List Char) (c : Char)
    (h : (pyStrip l).head? = some c) : isPySpace c = false := by
  unfold pyStrip at h
  have hp := reverse_dropWhile_reverse_pre isPySpace (l.dropWhile isPySpace)
  have h3 : ((l.dropWhile isPySpace)).head? = some c := head?_of_listPre hp h
  exact head?_dropWhile_false isPySpace l c h3

theorem head?_take_200 (l : List Char) : (l.take 200).head? = l.head? := by
  cases l <;> rfl

set_option maxRecDepth 10000 in
/-- C5 (counterexample): on a title of 199 `'a'`s, a space, then `'b'`s, the
truncation to 200 characters happens after stripping, so the result ends in
a whitespace character, contradicting the claim that the result carries no
leading or trailing whitespace. -/
theorem claim5_counterexample :
    sanitize_filename (String.mk (List.replicate 199 'a' ++ [' ', 'b'])) =
      String.mk (List.replicate 199 'a' ++ [' ']) ∧
    (sanitize_filename
        (String.mk (List.replicate 199 'a' ++ [' ', 'b']))).data.getLast? =
      some ' ' ∧
    isPySpace ' ' = true := by
  refine ⟨by decide, by decide, rfl⟩

set_option maxRecDepth 10000 in
/-- C5 (amended): `sanitize_filename` always returns a string free of the
characters `<>:"/\|?*`, of length at most 200, with no leading whitespace
(but possibly trailing whitespace re-exposed by the 200-character cut);
a title of 250 `'a'`s yields exactly 200 `'a'`s. -/
theorem claim5_sanitize_filename_safe (s : String) :
    (∀ c ∈ (sanitize_filename s).data, c ∉ invalid_chars) ∧
    (sanitize_filename s).length ≤ 200 ∧
    (∀ c, (sanitize_filename s).data.head? = some c → isPySpace c = false) ∧
    sanitize_filename (String.mk (List.replicate 250 'a')) =
      String.mk (List.replicate 200 'a') := by
  refine ⟨?_, ?_, ?_, by decide⟩
  · intro c hcm
    have h1 : c ∈ pyStrip (invalid_chars.foldl
        (fun acc ch => acc.filter (fun d => d ≠ ch)) s.data) :=
      List.take_subset _ _ hcm
    have h2 := pyStrip_subset _ h1
    exact not_mem_of_foldl_filter invalid_chars s.data c h2
  · show ((pyStrip (invalid_chars.foldl
        (fun acc ch => acc.filter (fun d => d ≠ ch)) s.data)).take 200).length ≤ 200
    rw [List.length_take]
    exact min_le_left _ _
  · intro c hc
    apply pyStrip_head_not_space (invalid_chars.foldl
      (fun acc ch => acc.filter (fun d => d ≠ ch)) s.data) c
    rw [← head?_take_200]
    exact hc

/-- C5 (witness). -/
theorem claim5_witness :
    isPySpace 'a' = false ∧ (sanitize_filename " a<b* ").length ≤ 200 := by
  have h := claim5_sanitize_filename_safe " a<b* "
  exact ⟨h.2.2.1 'a' (by decide), h.2.1⟩

/-! ### Lemmas about the timestamp shape -/

theorem takeWhile_digits (H R : List Char) (hH : H.all Char.isDigit = true) :
    (H ++ ':' :: R).takeWhile Char.isDigit = H ∧
    (H ++ ':' :: R).dropWhile Char.isDigit = ':' :: R := by
  induction H with
  | nil =>
    have hc : (':' : Char).isDigit = false := rfl
    simp [List.takeWhile_cons, List.dropWhile_cons, hc]
  | cons a t ih =>
    simp only [List.all_cons, Bool.and_eq_true] at hH
    obtain ⟨ha, ht⟩ := hH
    have ihh := ih ht
    simp [List.takeWhile_cons, List.dropWhile_cons, ha, ihh.1, ihh.2]

theorem toString_digits_lt24 :
    ∀ n < 24, (toString n).data ≠ [] ∧ (toString n).data.all Char.isDigit = true := by
  decide

theorem twoDigit_digits :
    ∀ n < 60, (twoDigit n).data.length = 2 ∧
      (twoDigit n).data.all Char.isDigit = true := by
  decide

theorem isHMS_build (h m s : Nat) (hh : h < 24) (hm : m < 60) (hs : s < 60) :
    isHMS (toString h ++ ":" ++ twoDigit m ++ ":" ++ twoDigit s) = true := by
  obtain ⟨hne, hdig⟩ := toString_digits_lt24 h hh
  obtain ⟨hm2, hmdig⟩ := twoDigit_digits m hm
  obtain ⟨hs2, hsdig⟩ := twoDigit_digits s hs
  obtain ⟨m1, m2', hmEq⟩ := List.length_eq_two.mp hm2
  obtain ⟨s1, s2', hsEq⟩ := List.length_eq_two.mp hs2
  rw [hmEq] at hmdig
  rw [hsEq] at hsdig
  simp only [List.all_cons, List.all_nil, Bool.and_eq_true, Bool.and_true] at hmdig hsdig
  have hdata : (toString h ++ ":" ++ twoDigit m ++ ":" ++ twoDigit s).data =
      (toString h).data ++ ':' :: ((twoDigit m).data ++ ':' :: (twoDigit s).data) := by
    simp [String.data_append]
  have hsplit := takeWhile_digits (toString h).data
    ((twoDigit m).data ++ ':' :: (twoDigit s).data) hdig
  unfold isHMS
  rw [hdata, hsplit.1, hsplit.2, hmEq, hsEq]
  simp [hne, hmdig.1, hmdig.2, hsdig.1, hsdig.2]

theorem isHMS_timedelta (n : ℤ) (h0 : 0 ≤ n) (h1 : n < 86400) :
    isHMS (timedeltaStr n) = true := by
  obtain ⟨k, rfl⟩ := Int.eq_ofNat_of_zero_le h0
  have hk : k < 86400 := by exact_mod_cast h1
  have hdays : Int.fdiv (k : ℤ) 86400 = 0 := by
    rw [show ((86400 : ℤ)) = ((86400 : ℕ) : ℤ) from rfl, ← Int.ofNat_fdiv]
    simp [Nat.div_eq_of_lt hk]
  have hrem : (Int.fmod (k : ℤ) 86400).toNat = k := by
    rw [show ((86400 : ℤ)) = ((86400 : ℕ) : ℤ) from rfl, ← Int.ofNat_fmod]
    simp [Nat.mod_eq_of_lt hk]
  unfold timedeltaStr
  rw [hdays, hrem]
  simp only [if_pos rfl]
  exact isHMS_build _ _ _ (by omega) (by omega) (by omega)

theorem isHMS_format {q : ℚ} (h0 : 0 ≤ q) (h1 : q < 86400) :
    isHMS (format_timestamp q) = true := by
  rw [format_timestamp, pyInt_eq_floor h0]
  apply isHMS_timedelta
  · exact Int.floor_nonneg.mpr h0
  · rw [Int.floor_lt]
    exact_mod_cast h1

/-- C3 (counterexample): a caption entry whose start offset is 86400
seconds (24 hours) or more is rendered with Python's day prefix, so its
formatted line is not of the `[H:MM:SS] text` shape. -/
theorem claim3_counterexample :
    formattedLine ⟨86400, "Hi"⟩ = "[1 day, 0:00:00] Hi" ∧
    isHMS (format_timestamp (86400 : ℚ)) = false := by
  constructor
  · decide
  · decide

/-- C3 (amended): for every entry sequence whose start offsets lie in
`[0, 86400)`, each formatted line is `[` ++ an `H:MM:SS`-shaped timestamp ++
`] ` ++ the entry text, and the raw-file body is exactly one such line per
entry, each followed by a newline. -/
theorem claim3_raw_line_shape (transcript : List TranscriptEntry)
    (h : ∀ e ∈ transcript, 0 ≤ e.start ∧ e.start < 86400) :
    (∀ e ∈ transcript, isHMS (format_timestamp e.start) = true ∧
      formattedLine e = "[" ++ format_timestamp e.start ++ "] " ++ e.text) ∧
    rawBody transcript =
      String.join (transcript.map (fun e => formattedLine e ++ "\n")) :=
  ⟨fun e he => ⟨isHMS_format (h e he).1 (h e he).2, rfl⟩, rfl⟩

/-- C3 (witness). -/
theorem claim3_witness : isHMS (format_timestamp (0 : ℚ)) = true := by
  have h := claim3_raw_line_shape [⟨0, "Hello"⟩]
    (by
      intro e he
      simp only [List.mem_singleton] at he
      subst he
      exact ⟨le_refl 0, by norm_num⟩)
  exact (h.1 ⟨0, "Hello"⟩ (by simp)).1

end Transcript
